import Mathlib

/-!
Shallow embedding of the ORIGIN SDK core client (`src/origin.ts`, plus the
second observed schema variant of the same client).  Remote contract reads are
modelled by an oracle record whose fields return `Except String` values:
`.ok` is a successful RPC read, `.error msg` is a rejected read carrying the
error message.  The in-memory TTL cache is an association list threaded
explicitly through each operation.  Operations that the source instruments
with `try`/`catch` translate every failure into a returned value; operations
with uncaught `await`s return `Except` at top level, `.error` meaning an
exception escaped to the caller.  Remote reads issued by the owner scan and
the record assembler are additionally logged as an event trace so that probe
counts can be stated.
-/

/-- `CacheEntry<T>` from `origin.ts`: a cached value with its expiry instant. -/
structure CacheEntry (α : Type) where
  data : α
  expiresAt : Nat
deriving DecidableEq, Repr

/-- First binding of a key in the cache map (`Map.get`). -/
def cacheFind {α : Type} (key : String) : List (String × CacheEntry α) → Option (CacheEntry α)
  | [] => none
  | (k, e) :: rest => if k = key then some e else cacheFind key rest

/-- Remove a key's binding (`Map.delete`). -/
def cacheErase {α : Type} (key : String) (c : List (String × CacheEntry α)) :
    List (String × CacheEntry α) :=
  c.filter (fun p => p.1 ≠ key)

/-- `getCache` from `origin.ts`: absent on miss; a hit whose `expiresAt` has
passed (`Date.now() > expiresAt`) is deleted and reported absent (lazy
expiry); an unexpired hit returns its data unchanged. -/
def getCache {α : Type} (now : Nat) (key : String) (c : List (String × CacheEntry α)) :
    Option α × List (String × CacheEntry α) :=
  match cacheFind key c with
  | none => (none, c)
  | some e => if e.expiresAt < now then (none, cacheErase key c) else (some e.data, c)

/-- `setCache` from `origin.ts`: store `data` under `key` with
`expiresAt = Date.now() + this.cacheTtl`. -/
def setCache {α : Type} (ttl now : Nat) (key : String) (d : α)
    (c : List (String × CacheEntry α)) : List (String × CacheEntry α) :=
  (key, ⟨d, now + ttl⟩) :: cacheErase key c

/-- `OriginConfig` from `types.ts` (the rpc url plays no role in the model). -/
structure OriginConfig where
  cacheTtl : Option Nat
deriving DecidableEq, Repr

/-- The constructor's `config?.cacheTtl ?? 30_000`. -/
def cacheTtlOf (config : Option OriginConfig) : Nat :=
  match config with
  | none => 30000
  | some cfg => cfg.cacheTtl.getD 30000

/-- viem's `formatUnits(value, decimals)` restricted to non-negative values
(uint256 reads): pad the decimal digit string to at least `decimals` digits,
split off the last `decimals` digits as the fraction, strip the fraction's
trailing zeros, and elide the decimal point when the fraction is empty. -/
def formatUnits (value decimals : Nat) : String :=
  let display := Nat.toDigits 10 value
  let padded := List.replicate (decimals - display.length) '0' ++ display
  let integerPart := padded.take (padded.length - decimals)
  let fractionPart := ((padded.drop (padded.length - decimals)).reverse.dropWhile
      (fun ch => ch = '0')).reverse
  String.mk ((if integerPart = [] then ['0'] else integerPart) ++
    (if fractionPart = [] then [] else '.' :: fractionPart))

deriving instance DecidableEq for Except

/-- `String.prototype.toLowerCase()` as used on the ASCII hex addresses the
SDK compares: lowercase every character. -/
def lowerStr (s : String) : String :=
  String.mk (s.toList.map Char.toLower)

/-- `.catch(() => d)` on a single awaited read. -/
def exceptD {α : Type} : Except String α → α → α
  | .ok a, _ => a
  | .error _, d => d

/-- Whether a call completed without an exception escaping. -/
def exOk {α : Type} : Except String α → Bool
  | .ok _ => true
  | .error _ => false

/-- Decidable substring test on strings. -/
def containsSub (needle hay : String) : Bool :=
  (List.range (hay.length + 1)).any (fun i => needle.toList.isPrefixOf (hay.toList.drop i))

namespace V1

/-- `License` from `types.ts` (V1 schema): type, identifier, issuedAt. -/
structure License where
  type : String
  id : String
  issuedAt : Nat
deriving DecidableEq, Repr

/-- `Lineage` from `types.ts` (V1 schema). -/
structure Lineage where
  parentId : Nat
  depth : Nat
deriving DecidableEq, Repr

/-- `Agent` from `types.ts` (V1 schema). -/
structure Agent where
  id : Nat
  name : String
  agentType : String
  owner : String
  birthBlock : Nat
  isVerified : Bool
  trustLevel : Nat
  licenses : List License
  lineage : Lineage
  tokenURI : String
deriving DecidableEq, Repr

/-- `ProtocolStats` from `types.ts` (V1 schema). -/
structure ProtocolStats where
  totalRegistered : Nat
  totalClaims : Nat
  totalClamsSupply : String
deriving DecidableEq, Repr

/-- `ClamsBalance` from `types.ts`.  The third field `amount = Number(formatted)`
is a lossy floating-point rendering of `formatted` and is outside the
embedding. -/
structure ClamsBalance where
  raw : Nat
  formatted : String
deriving DecidableEq, Repr

/-- `VerificationResult` from `types.ts`. -/
structure VerificationResult where
  verified : Bool
  trustLevel : Nat
  agent : Option Agent
  error : Option String
deriving DecidableEq, Repr

/-- The values stored in the client's single `Map<string, CacheEntry<unknown>>`:
agent records under `"agent:<id>"` keys and the stats record under `"stats"`. -/
inductive CVal
  | agent (a : Agent)
  | stats (s : ProtocolStats)
deriving DecidableEq, Repr

/-- The client's cache map. -/
abbrev CacheMap := List (String × CacheEntry CVal)

/-- The remote-read interface consumed by the V1 client: one field per
contract read it issues.  `.error msg` models a rejected RPC call. -/
structure Oracle where
  balanceOf : String → Except String Nat
  totalRegistered : Except String Nat
  ownerOf : Nat → Except String String
  agentData : Nat → Except String (String × String × String × Nat)
  isVerifiedRead : Nat → Except String Bool
  lineageRead : Nat → Except String (Nat × Nat)
  licenseCountRead : Nat → Except String Nat
  tokenURIRead : Nat → Except String String
  licenseRead : Nat → Nat → Except String (String × String × Nat)
  hasClaimedRead : String → Except String Bool
  totalClaimsRead : Except String Nat
  totalSupplyRead : Except String Nat
  clamsBalanceOf : String → Except String Nat

/-- Remote reads issued by an operation, plus a marker for each delegation to
the record assembler (`getAgent` invocation). -/
inductive Ev
  | balanceRead (addr : String)
  | totalRead
  | ownerRead (id : Nat)
  | resolveAgent (id : Nat)
  | coreRead (id : Nat)
  | verifiedRead (id : Nat)
  | lineageQuery (id : Nat)
  | countRead (id : Nat)
  | uriRead (id : Nat)
  | licRead (id : Nat) (index : Nat)
deriving DecidableEq, Repr

/-- Ownership probes (`ownerOf` reads) in a trace. -/
def probeCount (tr : List Ev) : Nat :=
  tr.countP (fun e => match e with | Ev.ownerRead _ => true | _ => false)

/-- Record assemblies (`getAgent` delegations) in a trace. -/
def resolveCount (tr : List Ev) : Nat :=
  tr.countP (fun e => match e with | Ev.resolveAgent _ => true | _ => false)

/-- The license loop of `getAgent` (V1): starting at index `i` with `fuel`
iterations left, read licenses one index at a time and stop at the first
failing index (`catch { break }`). -/
def fetchLicensesFrom (o : Oracle) (tid : Nat) : Nat → Nat → List License × List Ev
  | _, 0 => ([], [])
  | i, fuel + 1 =>
    match o.licenseRead tid i with
    | .error _ => ([], [Ev.licRead tid i])
    | .ok t =>
      ((⟨t.1, t.2.1, t.2.2⟩ : License) :: (fetchLicensesFrom o tid (i + 1) fuel).1,
       Ev.licRead tid i :: (fetchLicensesFrom o tid (i + 1) fuel).2)

/-- The license loop run from index 0 for `count` iterations. -/
def fetchLicenses (o : Oracle) (tid count : Nat) : List License × List Ev :=
  fetchLicensesFrom o tid 0 count

/-- The body of `getAgent` (V1) after the cache check: the fan-out reads, the
fault-tolerant auxiliary defaults, the license loop and the trust-level rule
`verified && licenses.length > 0 ? 2 : verified ? 1 : 0`.  `none` models the
surrounding `catch { return null }` firing on a core-read failure. -/
def assemble (o : Oracle) (tid : Nat) : Option Agent × List Ev :=
  let fanOut := [Ev.coreRead tid, Ev.verifiedRead tid, Ev.lineageQuery tid,
    Ev.countRead tid, Ev.uriRead tid]
  match o.agentData tid with
  | .error _ => (none, fanOut)
  | .ok core =>
    let verified := exceptD (o.isVerifiedRead tid) false
    let lineagePair := exceptD (o.lineageRead tid) (0, 0)
    let count := exceptD (o.licenseCountRead tid) 0
    let uri := exceptD (o.tokenURIRead tid) ""
    let fetched := fetchLicenses o tid count
    let trustLevel : Nat :=
      if verified = true ∧ 0 < fetched.1.length then 2
      else if verified = true then 1 else 0
    (some { id := tid, name := core.1, agentType := core.2.1, owner := core.2.2.1,
            birthBlock := core.2.2.2, isVerified := verified, trustLevel := trustLevel,
            licenses := fetched.1, lineage := ⟨lineagePair.1, lineagePair.2⟩,
            tokenURI := uri },
     fanOut ++ fetched.2)

/-- Cache-miss continuation of `getAgent` (V1): assemble, and on success store
the record under the cache key. -/
def assembleStep (o : Oracle) (ttl now tid : Nat) (key : String) (c : CacheMap) :
    Option Agent × CacheMap × List Ev :=
  match assemble o tid with
  | (none, tr) => (none, c, Ev.resolveAgent tid :: tr)
  | (some a, tr) => (some a, setCache ttl now key (CVal.agent a) c, Ev.resolveAgent tid :: tr)

/-- `getAgent` (V1): cache check under `"agent:<id>"`, then assembly.  The
cache lookup can only ever find an agent value under this key; the stats
branch is unreachable under the SDK's key discipline. -/
def getAgent (o : Oracle) (ttl now tid : Nat) (c : CacheMap) :
    Option Agent × CacheMap × List Ev :=
  let key := "agent:" ++ toString tid
  match getCache now key c with
  | (some (CVal.agent a), c2) => (some a, c2, [Ev.resolveAgent tid])
  | (some (CVal.stats _), c2) => assembleStep o ttl now tid key c2
  | (none, c2) => assembleStep o ttl now tid key c2

/-- The match test of the owner scan: the `ownerOf` read succeeded and the
owner equals the queried address after lowercasing both sides; a failed read
is never a match. -/
def ownerMatchB (o : Oracle) (id : Nat) (normalized : String) : Bool :=
  match o.ownerOf id with
  | .ok w => lowerStr w = normalized
  | .error _ => false

/-- The scan loop of `findAgentByOwner`: candidate identifiers from `n` down
to 1, one `ownerOf` read per candidate, read failures swallowed
(`catch { continue }`), delegation to `getAgent` on the first match. -/
def scanFrom (o : Oracle) (ttl now : Nat) (normalized : String) (c : CacheMap) :
    Nat → Option Agent × CacheMap × List Ev
  | 0 => (none, c, [])
  | n + 1 =>
    match o.ownerOf (n + 1) with
    | .error _ =>
      ((scanFrom o ttl now normalized c n).1, (scanFrom o ttl now normalized c n).2.1,
       Ev.ownerRead (n + 1) :: (scanFrom o ttl now normalized c n).2.2)
    | .ok w =>
      if lowerStr w = normalized then
        ((getAgent o ttl now (n + 1) c).1, (getAgent o ttl now (n + 1) c).2.1,
         Ev.ownerRead (n + 1) :: (getAgent o ttl now (n + 1) c).2.2)
      else
        ((scanFrom o ttl now normalized c n).1, (scanFrom o ttl now normalized c n).2.1,
         Ev.ownerRead (n + 1) :: (scanFrom o ttl now normalized c n).2.2)

/-- `findAgentByOwner` (V1).  The initial `getTotalRegistered()` is awaited
outside any `try`, so its failure escapes as an exception (`.error`). -/
def findAgentByOwner (o : Oracle) (ttl now : Nat) (addr : String) (c : CacheMap) :
    Except String (Option Agent) × CacheMap × List Ev :=
  match o.totalRegistered with
  | .error e => (.error e, c, [Ev.totalRead])
  | .ok total =>
    (.ok (scanFrom o ttl now (lowerStr addr) c total).1,
     (scanFrom o ttl now (lowerStr addr) c total).2.1,
     Ev.totalRead :: (scanFrom o ttl now (lowerStr addr) c total).2.2)

/-- `verifyAgent` (V1): zero-balance early return with a fixed error string;
the whole body is wrapped in `try`/`catch`, so a thrown scan is converted into
a `verified:false` result carrying the error message. -/
def verifyAgent (o : Oracle) (ttl now : Nat) (addr : String) (c : CacheMap) :
    VerificationResult × CacheMap × List Ev :=
  match o.balanceOf addr with
  | .error e =>
    ({ verified := false, trustLevel := 0, agent := none, error := some e }, c,
     [Ev.balanceRead addr])
  | .ok bal =>
    if bal = 0 then
      ({ verified := false, trustLevel := 0, agent := none,
         error := some "No Birth Certificate found for this address" }, c,
       [Ev.balanceRead addr])
    else
      match findAgentByOwner o ttl now addr c with
      | (.error e, c2, tr) =>
        ({ verified := false, trustLevel := 0, agent := none, error := some e }, c2,
         Ev.balanceRead addr :: tr)
      | (.ok none, c2, tr) =>
        ({ verified := false, trustLevel := 0, agent := none,
           error := some "Birth Certificate exists but agent data not found" }, c2,
         Ev.balanceRead addr :: tr)
      | (.ok (some a), c2, tr) =>
        ({ verified := true, trustLevel := a.trustLevel, agent := some a, error := none },
         c2, Ev.balanceRead addr :: tr)

/-- `verifyAgentById` (V1): wraps `getAgent`, which never throws. -/
def verifyAgentById (o : Oracle) (ttl now tid : Nat) (c : CacheMap) :
    VerificationResult × CacheMap × List Ev :=
  match getAgent o ttl now tid c with
  | (none, c2, tr) =>
    ({ verified := false, trustLevel := 0, agent := none,
       error := some ("No agent found with ID " ++ toString tid) }, c2, tr)
  | (some a, c2, tr) =>
    ({ verified := true, trustLevel := a.trustLevel, agent := some a, error := none },
     c2, tr)

/-- `isRegistered` (V1): `balance > 0n`, `catch { return false }`. -/
def isRegistered (o : Oracle) (addr : String) : Bool :=
  match o.balanceOf addr with
  | .ok n => decide (0 < n)
  | .error _ => false

/-- `hasClaimed` (V1): boolean passthrough, `catch { return false }`. -/
def hasClaimed (o : Oracle) (addr : String) : Bool :=
  exceptD (o.hasClaimedRead addr) false

/-- `getTotalRegistered` (V1): a bare read with no `catch`. -/
def getTotalRegistered (o : Oracle) : Except String Nat :=
  o.totalRegistered

/-- Cache-miss continuation of `getStats`: `getTotalRegistered()` has no
`.catch`, so its failure rejects the `Promise.all` and escapes; the claims and
supply reads default to `0` and `"0"`. -/
def statsFetch (o : Oracle) (ttl now : Nat) (c : CacheMap) :
    Except String (ProtocolStats × CacheMap) :=
  match o.totalRegistered with
  | .error e => .error e
  | .ok total =>
    let claims := exceptD o.totalClaimsRead 0
    let supply :=
      match o.totalSupplyRead with
      | .ok r => formatUnits r 18
      | .error _ => "0"
    .ok (⟨total, claims, supply⟩,
      setCache ttl now "stats" (CVal.stats ⟨total, claims, supply⟩) c)

/-- `getStats` (V1): cache check under `"stats"`, then the fetch.  An agent
value under this key is unreachable under the SDK's key discipline. -/
def getStats (o : Oracle) (ttl now : Nat) (c : CacheMap) :
    Except String (ProtocolStats × CacheMap) :=
  match getCache now "stats" c with
  | (some (CVal.stats s), c2) => .ok (s, c2)
  | (some (CVal.agent _), c2) => statsFetch o ttl now c2
  | (none, c2) => statsFetch o ttl now c2

/-- `getClamsBalance` (V1): the balance read is not wrapped in any
`try`/`catch`, so its failure escapes to the caller. -/
def getClamsBalance (o : Oracle) (addr : String) : Except String ClamsBalance :=
  match o.clamsBalanceOf addr with
  | .error e => .error e
  | .ok raw => .ok ⟨raw, formatUnits raw 18⟩

/-- `clearCache` (V1): `this.cache.clear()`. -/
def clearCache (_c : CacheMap) : CacheMap := []

end V1

namespace V2

/-- `License` from `types.ts` (V2 schema): the five-field license struct. -/
structure License where
  licenseType : String
  licenseNumber : String
  holder : String
  jurisdiction : String
  active : Bool
deriving DecidableEq, Repr

/-- The V2 `getAgent` contract read's record tuple. -/
structure AgentRecordData where
  name : String
  agentType : String
  platform : String
  creator : String
  parentAgentId : Nat
  humanPrincipal : String
  lineageDepth : Nat
  birthTimestamp : Nat
  publicKeyHash : String
  active : Bool
deriving DecidableEq, Repr

/-- `Agent` from `types.ts` (V2 schema). -/
structure Agent where
  id : Nat
  name : String
  agentType : String
  platform : String
  owner : String
  creator : String
  parentAgentId : Nat
  humanPrincipal : String
  lineageDepth : Nat
  birthTimestamp : Nat
  active : Bool
  trustLevel : Nat
  licenses : List License
  tokenURI : String
deriving DecidableEq, Repr

/-- The remote-read interface consumed by the V2 `getAgent`. -/
structure Oracle where
  agentRecord : Nat → Except String AgentRecordData
  licensesRead : Nat → Except String (List License)
  ownerOf : Nat → Except String String
  tokenURIRead : Nat → Except String String

/-- The all-zero address compared against `humanPrincipal`. -/
def zeroAddress : String := "0x0000000000000000000000000000000000000000"

/-- The body of `getAgent` (V2) after the cache check: core record, license
list (fault-tolerant, `.catch(() => [])`), owner and tokenURI reads (not
fault-tolerant), and the trust rule
`activeLicenses.length > 0 ? 2 : hasHumanPrincipal ? 1 : 0`.  `none` models
the surrounding `catch { return null }`. -/
def assemble (o : Oracle) (tid : Nat) : Option Agent :=
  match o.agentRecord tid, o.ownerOf tid, o.tokenURIRead tid with
  | .ok r, .ok owner, .ok uri =>
    let licenses := exceptD (o.licensesRead tid) []
    let hasHumanPrincipal := r.humanPrincipal ≠ zeroAddress
    let activeLicenses := licenses.filter (fun l => l.active)
    let trustLevel : Nat := if 0 < activeLicenses.length then 2
      else if hasHumanPrincipal then 1 else 0
    some { id := tid, name := r.name, agentType := r.agentType, platform := r.platform,
           owner := owner, creator := r.creator, parentAgentId := r.parentAgentId,
           humanPrincipal := r.humanPrincipal, lineageDepth := r.lineageDepth,
           birthTimestamp := r.birthTimestamp, active := r.active,
           trustLevel := trustLevel,
           licenses := licenses.map (fun l =>
             ⟨l.licenseType, l.licenseNumber, l.holder, l.jurisdiction, l.active⟩),
           tokenURI := uri }
  | _, _, _ => none

/-- The V2 client's cache map restricted to the agent entries the modelled
operations touch. -/
abbrev CacheMap := List (String × CacheEntry Agent)

/-- `getAgent` (V2): cache check under `"agent:<id>"`, then assembly; a
successful assembly is stored under the key. -/
def getAgent (o : Oracle) (ttl now tid : Nat) (c : CacheMap) : Option Agent × CacheMap :=
  let key := "agent:" ++ toString tid
  match getCache now key c with
  | (some a, c2) => (some a, c2)
  | (none, c2) =>
    match assemble o tid with
    | none => (none, c2)
    | some a => (some a, setCache ttl now key a c2)

end V2

namespace V1

/-- The trace of ownership probes a full scan from `n` down to 1 issues. -/
def probeList : Nat → List Ev
  | 0 => []
  | n + 1 => Ev.ownerRead (n + 1) :: probeList n

end V1

/-- A V1 oracle on which every remote read fails. -/
def oracleBase : V1.Oracle where
  balanceOf := fun _ => .error "down"
  totalRegistered := .error "down"
  ownerOf := fun _ => .error "down"
  agentData := fun _ => .error "down"
  isVerifiedRead := fun _ => .error "down"
  lineageRead := fun _ => .error "down"
  licenseCountRead := fun _ => .error "down"
  tokenURIRead := fun _ => .error "down"
  licenseRead := fun _ _ => .error "down"
  hasClaimedRead := fun _ => .error "down"
  totalClaimsRead := .error "down"
  totalSupplyRead := .error "down"
  clamsBalanceOf := fun _ => .error "down"

/-- A V2 oracle on which every remote read fails. -/
def v2Base : V2.Oracle where
  agentRecord := fun _ => .error "down"
  licensesRead := fun _ => .error "down"
  ownerOf := fun _ => .error "down"
  tokenURIRead := fun _ => .error "down"

/-- A V1 registry whose entry 1 is unverified but carries one license. -/
def c1Oracle : V1.Oracle :=
  { oracleBase with
    agentData := fun _ => .ok ("Suppi", "guardian", "0xowner", 5)
    isVerifiedRead := fun _ => .ok false
    lineageRead := fun _ => .ok (0, 0)
    licenseCountRead := fun _ => .ok 1
    tokenURIRead := fun _ => .ok ""
    licenseRead := fun _ _ => .ok ("MLO", "154083", 7) }

/-- The record the V1 assembler produces from `c1Oracle` for id 1. -/
def c1Agent : V1.Agent where
  id := 1
  name := "Suppi"
  agentType := "guardian"
  owner := "0xowner"
  birthBlock := 5
  isVerified := false
  trustLevel := 0
  licenses := [⟨"MLO", "154083", 7⟩]
  lineage := ⟨0, 0⟩
  tokenURI := ""

/-- A V1 registry whose entry 1 is verified and licensed. -/
def w1Oracle : V1.Oracle :=
  { c1Oracle with isVerifiedRead := fun _ => .ok true }

/-- The record the V1 assembler produces from `w1Oracle` for id 1. -/
def w1Agent : V1.Agent :=
  { c1Agent with isVerified := true, trustLevel := 2 }

/-- A V2 registry whose entry 1 has no human principal but one active license. -/
def w2Oracle : V2.Oracle where
  agentRecord := fun _ =>
    .ok ⟨"Suppi", "guardian", "base", "0xcreator", 0, V2.zeroAddress, 0, 9, "pk", true⟩
  licensesRead := fun _ => .ok [⟨"MLO", "154083", "holder", "CA", true⟩]
  ownerOf := fun _ => .ok "0xowner"
  tokenURIRead := fun _ => .ok "uri"

/-- The record the V2 assembler produces from `w2Oracle` for id 1. -/
def w2Agent : V2.Agent where
  id := 1
  name := "Suppi"
  agentType := "guardian"
  platform := "base"
  owner := "0xowner"
  creator := "0xcreator"
  parentAgentId := 0
  humanPrincipal := V2.zeroAddress
  lineageDepth := 0
  birthTimestamp := 9
  active := true
  trustLevel := 2
  licenses := [⟨"MLO", "154083", "holder", "CA", true⟩]
  tokenURI := "uri"

/-- A registry of size 2: the probe of id 2 fails, id 1 is owned (with mixed
case) by the queried address. -/
def c3Oracle : V1.Oracle :=
  { c1Oracle with
    totalRegistered := .ok 2
    ownerOf := fun id => if id = 1 then .ok "0xME" else .error "down" }

/-- A registry of size 0. -/
def c3ZeroOracle : V1.Oracle :=
  { oracleBase with totalRegistered := .ok 0 }

/-- A registry of size 2 on which every ownership probe fails. -/
def c3NoneOracle : V1.Oracle :=
  { oracleBase with totalRegistered := .ok 2 }

/-- A V1 registry whose core record read succeeds while every auxiliary read
fails. -/
def c4V1Oracle : V1.Oracle :=
  { oracleBase with agentData := fun _ => .ok ("Suppi", "guardian", "0xowner", 5) }

/-- A V2 registry whose license-list read fails while the core, owner and
tokenURI reads succeed. -/
def c4V2Oracle : V2.Oracle :=
  { w2Oracle with licensesRead := fun _ => .error "down" }

/-- A V2 registry whose ownership read fails while the core read succeeds. -/
def c4V2OwnerOracle : V2.Oracle :=
  { w2Oracle with ownerOf := fun _ => .error "down" }

/-- An address holding no registration: its ownership-count read returns 0. -/
def c6Oracle : V1.Oracle :=
  { oracleBase with balanceOf := fun _ => .ok 0 }

/-- An address whose ownership-count read returns 5. -/
def c7Oracle : V1.Oracle :=
  { oracleBase with balanceOf := fun _ => .ok 5 }

/-- A protocol whose token total-supply read returns `1000000 * 10^18` base
units. -/
def c9Oracle : V1.Oracle :=
  { oracleBase with
    totalRegistered := .ok 1
    totalSupplyRead := .ok (1000000 * 10 ^ 18) }

/-- A V1 registry reporting 3 licenses for entry 1 whose per-index license
read succeeds at index 0 and fails from index 1 on. -/
def c10Oracle : V1.Oracle :=
  { c4V1Oracle with
    licenseCountRead := fun _ => .ok 3
    licenseRead := fun _ i => if i = 0 then .ok ("MLO", "154083", 7) else .error "down" }

theorem cacheFind_setCache {α : Type} (ttl now : Nat) (k : String) (v : α)
    (c : List (String × CacheEntry α)) :
    cacheFind k (setCache ttl now k v c) = some ⟨v, now + ttl⟩ := by
  simp [setCache, cacheFind]

theorem getCache_of_find_none {α : Type} (now : Nat) (k : String)
    (c : List (String × CacheEntry α)) (h : cacheFind k c = none) :
    getCache now k c = (none, c) := by
  simp [getCache, h]

theorem exceptD_of_not_ok {α : Type} (e : Except String α) (d : α)
    (h : exOk e = false) : exceptD e d = d := by
  cases e with
  | ok a => simp [exOk] at h
  | error msg => rfl

theorem assembleStep_fst (o : V1.Oracle) (ttl now tid : Nat) (key : String)
    (c : V1.CacheMap) :
    (V1.assembleStep o ttl now tid key c).1 = (V1.assemble o tid).1 := by
  unfold V1.assembleStep
  cases hA : V1.assemble o tid with
  | mk r tr => cases r <;> rfl

/-- C5: the cache stores `expiresAt = now + ttl` on `set`; a `get` that finds
an entry whose expiry instant has passed deletes it and reports absent (lazy
expiry); a `get` that finds an unexpired entry returns its value unchanged;
the TTL is the single construction-time value `config?.cacheTtl ?? 30000`,
shared by all keys. -/
theorem cache_contract {α : Type} (ttl now : Nat) (k : String) (v : α)
    (c : List (String × CacheEntry α)) (e : CacheEntry α) :
    cacheFind k (setCache ttl now k v c) = some ⟨v, now + ttl⟩ ∧
    (cacheFind k c = some e → e.expiresAt < now →
      getCache now k c = (none, cacheErase k c)) ∧
    (cacheFind k c = some e → now ≤ e.expiresAt →
      getCache now k c = (some e.data, c)) ∧
    cacheTtlOf none = 30000 ∧
    (∀ cfg : OriginConfig, cacheTtlOf (some cfg) = cfg.cacheTtl.getD 30000) := by
  refine ⟨cacheFind_setCache ttl now k v c, ?_, ?_, rfl, fun _ => rfl⟩
  · intro h hexp
    simp [getCache, h, hexp]
  · intro h hle
    simp [getCache, h, Nat.not_lt.mpr hle]

theorem cache_contract_witness :
    cacheFind "k" (setCache 30000 5 "k" (7 : Nat) []) = some ⟨7, 30005⟩ ∧
    getCache 10 "k" [("k", ⟨(7 : Nat), 8⟩)] = (none, cacheErase "k" [("k", ⟨(7 : Nat), 8⟩)]) ∧
    getCache 8 "k" [("k", ⟨(7 : Nat), 8⟩)] = (some 7, [("k", ⟨(7 : Nat), 8⟩)]) ∧
    cacheTtlOf none = 30000 := by
  have h1 := @cache_contract Nat 30000 5 "k" 7 [] ⟨7, 8⟩
  have h2 := @cache_contract Nat 30000 10 "k" 7 [("k", ⟨7, 8⟩)] ⟨7, 8⟩
  have h3 := @cache_contract Nat 30000 8 "k" 7 [("k", ⟨7, 8⟩)] ⟨7, 8⟩
  exact ⟨h1.1, h2.2.1 (by decide) (by decide), h3.2.2.1 (by decide) (by decide), h1.2.2.2.1⟩

/-- C7: `isRegistered` is true exactly when the ownership-count read succeeds
with a nonzero value; a failed read yields false (the failure is caught, never
re-raised). -/
theorem isRegistered_iff_nonzero_count (o : V1.Oracle) (addr : String) :
    (V1.isRegistered o addr = true ↔ ∃ n, o.balanceOf addr = .ok n ∧ 0 < n) ∧
    (∀ msg, o.balanceOf addr = .error msg → V1.isRegistered o addr = false) := by
  constructor
  · constructor
    · intro h
      unfold V1.isRegistered at h
      cases hb : o.balanceOf addr with
      | ok n =>
        rw [hb] at h
        exact ⟨n, rfl, by simpa using h⟩
      | error msg =>
        rw [hb] at h
        simp at h
    · rintro ⟨n, hb, hn⟩
      unfold V1.isRegistered
      rw [hb]
      simpa using hn
  · intro msg h
    unfold V1.isRegistered
    rw [h]

theorem isRegistered_iff_nonzero_count_witness :
    V1.isRegistered c7Oracle "0xa" = true ∧ V1.isRegistered oracleBase "0xa" = false := by
  exact ⟨(isRegistered_iff_nonzero_count c7Oracle "0xa").1.2 ⟨5, rfl, by decide⟩,
    (isRegistered_iff_nonzero_count oracleBase "0xa").2 "down" rfl⟩

/-- C8: record resolution is deterministic in the upstream data: after
`clearCache`, re-resolving the same identifier against the same remote-read
responses returns a record equal in every field to the one resolved before
the clear (stated for a pre-clear resolution that actually read through,
i.e. whose cache lookup missed), at any later instant. -/
theorem resolve_idempotent_after_clear (o : V1.Oracle) (ttl now now2 tid : Nat)
    (c c2 : V1.CacheMap)
    (h : cacheFind ("agent:" ++ toString tid) c = none) :
    (V1.getAgent o ttl now2 tid (V1.clearCache c2)).1 = (V1.getAgent o ttl now tid c).1 := by
  have e1 : V1.getAgent o ttl now2 tid (V1.clearCache c2) =
      V1.assembleStep o ttl now2 tid ("agent:" ++ toString tid) [] := rfl
  have e2 : V1.getAgent o ttl now tid c =
      V1.assembleStep o ttl now tid ("agent:" ++ toString tid) c := by
    unfold V1.getAgent
    simp only [getCache_of_find_none now ("agent:" ++ toString tid) c h]
  rw [e1, e2, assembleStep_fst, assembleStep_fst]

theorem resolve_idempotent_after_clear_witness :
    (V1.getAgent c1Oracle 30000 99 1 (V1.clearCache [])).1 =
      (V1.getAgent c1Oracle 30000 0 1 []).1 := by
  exact resolve_idempotent_after_clear c1Oracle 30000 0 99 1 [] [] rfl

/-- C6 counterexample: on a zero ownership count, `verifyAgent` reports the
fixed error string "No Birth Certificate found for this address", which does
not contain the substring "not registered" the claim requires. -/
theorem verify_zero_balance_string_cex :
    (V1.verifyAgent c6Oracle 30000 0 "0xy" []).1.error =
      some "No Birth Certificate found for this address" ∧
    containsSub "not registered" "No Birth Certificate found for this address" = false := by
  exact ⟨rfl, by decide⟩

/-- C6 (amended): for every address whose ownership-count read returns zero,
`verifyAgent` returns `verified:false, trustLevel:0, agent:absent` with the
error string "No Birth Certificate found for this address", leaves the cache
untouched, and issues no remote read beyond the single count read (in
particular, no owner-scan probe). -/
theorem verify_zero_balance (o : V1.Oracle) (ttl now : Nat) (addr : String)
    (c : V1.CacheMap) (h : o.balanceOf addr = .ok 0) :
    V1.verifyAgent o ttl now addr c =
      ({ verified := false, trustLevel := 0, agent := none,
         error := some "No Birth Certificate found for this address" }, c,
       [V1.Ev.balanceRead addr]) := by
  unfold V1.verifyAgent
  rw [h]
  rfl

theorem verify_zero_balance_witness :
    V1.verifyAgent c6Oracle 30000 0 "0xy" [] =
      ({ verified := false, trustLevel := 0, agent := none,
         error := some "No Birth Certificate found for this address" }, [],
       [V1.Ev.balanceRead "0xy"]) :=
  verify_zero_balance c6Oracle 30000 0 "0xy" [] rfl

theorem formatUnits_million : formatUnits (1000000 * 10 ^ 18) 18 = "1000000" := by decide

/-- C9: when the token total-supply read returns `1000000 * 10^18` base units
(and the stats fetch is reached: no fresh cache entry, total-count read
succeeds), `getStats` reports `totalClamsSupply = "1000000"`: base units
formatted at 18 decimals with the all-zero fraction and its decimal point
elided. -/
theorem stats_supply_formatting (o : V1.Oracle) (ttl now total : Nat) (c : V1.CacheMap)
    (hmiss : cacheFind "stats" c = none)
    (hreg : o.totalRegistered = .ok total)
    (hsup : o.totalSupplyRead = .ok (1000000 * 10 ^ 18)) :
    (V1.getStats o ttl now c).toOption.map (fun p => p.1.totalClamsSupply) =
      some "1000000" := by
  unfold V1.getStats
  simp only [getCache_of_find_none now "stats" c hmiss]
  unfold V1.statsFetch
  rw [hreg, hsup]
  simp [Except.toOption]
  exact formatUnits_million

theorem stats_supply_formatting_witness :
    (V1.getStats c9Oracle 30000 0 []).toOption.map (fun p => p.1.totalClamsSupply) =
      some "1000000" :=
  stats_supply_formatting c9Oracle 30000 0 1 [] rfl rfl rfl

/-- C1 counterexample: the V1 assembler, given an unverified record carrying
one license (active by default in this schema, which has no per-license
active flag), derives trust level 0, not the claimed 2. -/
theorem trust_rule_cex :
    (V1.assemble c1Oracle 1).1 = some c1Agent ∧
    c1Agent.licenses.length = 1 ∧ c1Agent.trustLevel = 0 ∧ c1Agent.trustLevel ≠ 2 := by
  refine ⟨by decide, by decide, by decide, by decide⟩


theorem v2_trust_char (o2 : V2.Oracle) (tid : Nat) (a2 : V2.Agent)
    (h2 : V2.assemble o2 tid = some a2) :
    a2.trustLevel = (if a2.licenses.filter (fun l => l.active) ≠ [] then 2
      else if a2.humanPrincipal ≠ V2.zeroAddress then 1 else 0) := by
  unfold V2.assemble at h2
  cases hrec : o2.agentRecord tid <;> rw [hrec] at h2
  case error => simp at h2
  case ok r =>
  cases hown : o2.ownerOf tid <;> rw [hown] at h2
  case error => simp at h2
  case ok w =>
  cases huri : o2.tokenURIRead tid <;> rw [huri] at h2
  case error => simp at h2
  case ok u =>
  simp only [Option.some.injEq] at h2
  subst h2
  have hmap : (fun l : V2.License =>
      (⟨l.licenseType, l.licenseNumber, l.holder, l.jurisdiction, l.active⟩ : V2.License)) =
      fun l => l := rfl
  simp only [hmap, List.map_id']
  by_cases hf : (exceptD (o2.licensesRead tid) []).filter (fun l => l.active) = []
  · have hn1 : ¬ (0 < ((exceptD (o2.licensesRead tid) []).filter (fun l => l.active)).length) := by
      simp [hf]
    have hn2 : ¬ ((exceptD (o2.licensesRead tid) []).filter (fun l => l.active) ≠ []) := by
      simpa using hf
    rw [if_neg hn1, if_neg hn2]
  · rw [if_pos (List.length_pos.mpr hf), if_pos hf]

theorem v1_trust_char (o1 : V1.Oracle) (tid : Nat) (a1 : V1.Agent)
    (h1 : (V1.assemble o1 tid).1 = some a1) :
    a1.trustLevel = (if a1.isVerified = true ∧ a1.licenses ≠ [] then 2
      else if a1.isVerified = true then 1 else 0) := by
  unfold V1.assemble at h1
  cases hcore : o1.agentData tid <;> rw [hcore] at h1
  case error => simp at h1
  case ok core =>
  simp only [Option.some.injEq] at h1
  subst h1
  simp only [List.length_pos]

/-- C1 (amended): in the V2 schema path, any active license forces trust
level 2 regardless of the human-principal evidence, human-principal evidence
alone yields 1, and neither yields 0; in the V1 schema path, trust level 2
additionally requires the verified flag: verified with a nonempty license
list yields 2, verified alone yields 1, and an unverified record yields 0
even when licenses are present. -/
theorem trust_rule_amended (o1 : V1.Oracle) (o2 : V2.Oracle) (tid : Nat)
    (a1 : V1.Agent) (a2 : V2.Agent)
    (h1 : (V1.assemble o1 tid).1 = some a1)
    (h2 : V2.assemble o2 tid = some a2) :
    (a2.licenses.filter (fun l => l.active) ≠ [] → a2.trustLevel = 2) ∧
    (a2.licenses.filter (fun l => l.active) = [] → a2.humanPrincipal ≠ V2.zeroAddress →
      a2.trustLevel = 1) ∧
    (a2.licenses.filter (fun l => l.active) = [] → a2.humanPrincipal = V2.zeroAddress →
      a2.trustLevel = 0) ∧
    (a1.isVerified = true → a1.licenses ≠ [] → a1.trustLevel = 2) ∧
    (a1.isVerified = true → a1.licenses = [] → a1.trustLevel = 1) ∧
    (a1.isVerified = false → a1.trustLevel = 0) := by
  have hv2 := v2_trust_char o2 tid a2 h2
  have hv1 := v1_trust_char o1 tid a1 h1
  refine ⟨?_, ?_, ?_, ?_, ?_, ?_⟩
  · intro hne
    rw [hv2, if_pos hne]
  · intro hf hh
    rw [hv2, if_neg (by simpa using hf), if_pos hh]
  · intro hf hh
    rw [hv2, if_neg (by simpa using hf), if_neg (by simpa using hh)]
  · intro hv hne
    rw [hv1, if_pos ⟨hv, hne⟩]
  · intro hv he
    rw [hv1, if_neg (by simp [he]), if_pos hv]
  · intro hv
    rw [hv1, if_neg (by simp [hv]), if_neg (by simp [hv])]

theorem trust_rule_amended_witness :
    w2Agent.licenses.filter (fun l => l.active) ≠ [] ∧ w2Agent.trustLevel = 2 ∧
    w1Agent.isVerified = true ∧ w1Agent.licenses ≠ [] ∧ w1Agent.trustLevel = 2 := by
  have h := trust_rule_amended w1Oracle w2Oracle 1 w1Agent w2Agent (by decide) (by decide)
  exact ⟨by decide, h.1 (by decide), by decide, by decide, h.2.2.2.1 (by decide) (by decide)⟩

/-- C2 counterexample: with every remote read failing, `getClamsBalance`,
`getStats` (on a cold cache) and `findAgentByOwner` all let the failure escape
as an exception instead of returning a defaulted value. -/
theorem public_ops_raise_cex :
    exOk (V1.getClamsBalance oracleBase "0xa") = false ∧
    exOk (V1.getStats oracleBase 30000 0 []) = false ∧
    exOk (V1.findAgentByOwner oracleBase 30000 0 "0xa" []).1 = false := by
  refine ⟨by decide, by decide, by decide⟩

/-- C2 (amended): `verifyAgent` and `verifyAgentById` never raise — every
outcome is either `verified:true` with a record or `verified:false` with an
embedded error message (`isRegistered`, `hasClaimed` and `getAgent` are
likewise total by their catch-all handlers, as their types in this embedding
show); but `getClamsBalance` raises exactly when the balance read fails,
`findAgentByOwner` raises exactly when the total-registered read fails, and
an uncached `getStats` raises exactly when the total-registered read fails. -/
theorem public_ops_failure_surface (o : V1.Oracle) (ttl now : Nat) (addr : String)
    (tid : Nat) (c : V1.CacheMap) :
    exOk (V1.getClamsBalance o addr) = exOk (o.clamsBalanceOf addr) ∧
    exOk (V1.findAgentByOwner o ttl now addr c).1 = exOk o.totalRegistered ∧
    (cacheFind "stats" c = none →
      exOk (V1.getStats o ttl now c) = exOk o.totalRegistered) ∧
    (((V1.verifyAgent o ttl now addr c).1.verified = true ∧
        (V1.verifyAgent o ttl now addr c).1.error = none) ∨
      ((V1.verifyAgent o ttl now addr c).1.verified = false ∧
        (V1.verifyAgent o ttl now addr c).1.error ≠ none)) ∧
    (((V1.verifyAgentById o ttl now tid c).1.verified = true ∧
        (V1.verifyAgentById o ttl now tid c).1.error = none) ∨
      ((V1.verifyAgentById o ttl now tid c).1.verified = false ∧
        (V1.verifyAgentById o ttl now tid c).1.error ≠ none)) := by
  refine ⟨?_, ?_, ?_, ?_, ?_⟩
  · unfold V1.getClamsBalance
    cases hb : o.clamsBalanceOf addr <;> rfl
  · unfold V1.findAgentByOwner
    cases ht : o.totalRegistered <;> rfl
  · intro hmiss
    unfold V1.getStats
    simp only [getCache_of_find_none now "stats" c hmiss]
    unfold V1.statsFetch
    cases ht : o.totalRegistered <;> rfl
  · unfold V1.verifyAgent
    cases hb : o.balanceOf addr with
    | error e => right; exact ⟨rfl, by simp⟩
    | ok bal =>
      dsimp only
      by_cases h0 : bal = 0
      · rw [if_pos h0]
        right
        exact ⟨rfl, by simp⟩
      · rw [if_neg h0]
        cases hf : V1.findAgentByOwner o ttl now addr c with
        | mk r rest =>
          cases rest with
          | mk c2 tr =>
            cases r with
            | error e => right; exact ⟨rfl, by simp⟩
            | ok oa =>
              cases oa with
              | none => right; exact ⟨rfl, by simp⟩
              | some a => left; exact ⟨rfl, rfl⟩
  · unfold V1.verifyAgentById
    cases hg : V1.getAgent o ttl now tid c with
    | mk r rest =>
      cases rest with
      | mk c2 tr =>
        cases r with
        | none => right; exact ⟨rfl, by simp⟩
        | some a => left; exact ⟨rfl, rfl⟩

theorem public_ops_failure_surface_witness :
    exOk (V1.getClamsBalance oracleBase "0xa") = exOk (oracleBase.clamsBalanceOf "0xa") ∧
    exOk (V1.getStats oracleBase 30000 0 []) = exOk oracleBase.totalRegistered ∧
    ((V1.verifyAgent c6Oracle 30000 0 "0xa" []).1.verified = false ∧
      (V1.verifyAgent c6Oracle 30000 0 "0xa" []).1.error ≠ none) := by
  have h1 := public_ops_failure_surface oracleBase 30000 0 "0xa" 1 []
  have h2 := public_ops_failure_surface c6Oracle 30000 0 "0xa" 1 []
  refine ⟨h1.1, h1.2.2.1 rfl, ?_⟩
  rcases h2.2.2.2.1 with hcase | hcase
  · exact absurd hcase.1 (by decide)
  · exact hcase

theorem v1_assemble_core_error (o1 : V1.Oracle) (tid : Nat) (msg : String)
    (h : o1.agentData tid = .error msg) :
    V1.assemble o1 tid = (none, [V1.Ev.coreRead tid, V1.Ev.verifiedRead tid,
      V1.Ev.lineageQuery tid, V1.Ev.countRead tid, V1.Ev.uriRead tid]) := by
  unfold V1.assemble
  rw [h]

theorem v2_assemble_none_of_core_error (o2 : V2.Oracle) (tid : Nat) (msg : String)
    (h : o2.agentRecord tid = .error msg) : V2.assemble o2 tid = none := by
  unfold V2.assemble
  rw [h]

theorem v2_assemble_none_of_owner_error (o2 : V2.Oracle) (tid : Nat) (msg : String)
    (h : o2.ownerOf tid = .error msg) : V2.assemble o2 tid = none := by
  unfold V2.assemble
  rw [h]
  cases hr : o2.agentRecord tid <;> rfl

theorem v2_getAgent_abort (o2 : V2.Oracle) (ttl now tid : Nat) (c2 : V2.CacheMap)
    (hmiss : cacheFind ("agent:" ++ toString tid) c2 = none)
    (hnone : V2.assemble o2 tid = none) :
    V2.getAgent o2 ttl now tid c2 = (none, c2) := by
  unfold V2.getAgent
  simp only [getCache_of_find_none now ("agent:" ++ toString tid) c2 hmiss, hnone]

/-- C4: each auxiliary read is independently fault-tolerant — in the V1
schema, failing verification, lineage or license-count reads are replaced by
the documented defaults (unverified, zero lineage, empty license list) and
assembly still succeeds; in the V2 schema a failing license-list read is
replaced by the empty list.  Failure of the core record read (either schema)
or of the ownership read (V2, where it is a separate call) aborts the whole
assembly: the result is absent, no partial record is returned, and the cache
is left unchanged. -/
theorem aux_fault_tolerance (o1 : V1.Oracle) (o2 : V2.Oracle) (ttl now tid : Nat)
    (c1 : V1.CacheMap) (c2 : V2.CacheMap) :
    (∀ core, o1.agentData tid = .ok core →
      ∃ a, (V1.assemble o1 tid).1 = some a ∧
        (exOk (o1.isVerifiedRead tid) = false → a.isVerified = false) ∧
        (exOk (o1.lineageRead tid) = false → a.lineage = ⟨0, 0⟩) ∧
        (exOk (o1.licenseCountRead tid) = false → a.licenses = [])) ∧
    (∀ msg, o1.agentData tid = .error msg →
      cacheFind ("agent:" ++ toString tid) c1 = none →
      (V1.getAgent o1 ttl now tid c1).1 = none ∧
      (V1.getAgent o1 ttl now tid c1).2.1 = c1) ∧
    (∀ r w u, o2.agentRecord tid = .ok r → o2.ownerOf tid = .ok w →
      o2.tokenURIRead tid = .ok u → exOk (o2.licensesRead tid) = false →
      ∃ a, V2.assemble o2 tid = some a ∧ a.licenses = []) ∧
    (∀ msg, o2.agentRecord tid = .error msg →
      cacheFind ("agent:" ++ toString tid) c2 = none →
      V2.getAgent o2 ttl now tid c2 = (none, c2)) ∧
    (∀ msg, o2.ownerOf tid = .error msg →
      cacheFind ("agent:" ++ toString tid) c2 = none →
      V2.getAgent o2 ttl now tid c2 = (none, c2)) := by
  refine ⟨?_, ?_, ?_, ?_, ?_⟩
  · intro core hcore
    refine ⟨{ id := tid
              name := core.1
              agentType := core.2.1
              owner := core.2.2.1
              birthBlock := core.2.2.2
              isVerified := exceptD (o1.isVerifiedRead tid) false
              trustLevel := if exceptD (o1.isVerifiedRead tid) false = true ∧
                  0 < (V1.fetchLicenses o1 tid (exceptD (o1.licenseCountRead tid) 0)).1.length
                then 2 else if exceptD (o1.isVerifiedRead tid) false = true then 1 else 0
              licenses := (V1.fetchLicenses o1 tid (exceptD (o1.licenseCountRead tid) 0)).1
              lineage := ⟨(exceptD (o1.lineageRead tid) (0, 0)).1,
                (exceptD (o1.lineageRead tid) (0, 0)).2⟩
              tokenURI := exceptD (o1.tokenURIRead tid) "" }, ?_, ?_, ?_, ?_⟩
    · unfold V1.assemble
      rw [hcore]
    · intro hfail
      exact exceptD_of_not_ok _ false hfail
    · intro hfail
      show V1.Lineage.mk (exceptD (o1.lineageRead tid) (0, 0)).1
        (exceptD (o1.lineageRead tid) (0, 0)).2 = ⟨0, 0⟩
      rw [exceptD_of_not_ok _ (0, 0) hfail]
    · intro hfail
      show (V1.fetchLicenses o1 tid (exceptD (o1.licenseCountRead tid) 0)).1 = []
      rw [exceptD_of_not_ok _ 0 hfail]
      rfl
  · intro msg hcore hmiss
    have hg : V1.getAgent o1 ttl now tid c1 =
        (none, c1, V1.Ev.resolveAgent tid :: [V1.Ev.coreRead tid, V1.Ev.verifiedRead tid,
          V1.Ev.lineageQuery tid, V1.Ev.countRead tid, V1.Ev.uriRead tid]) := by
      unfold V1.getAgent
      simp only [getCache_of_find_none now ("agent:" ++ toString tid) c1 hmiss]
      unfold V1.assembleStep
      rw [v1_assemble_core_error o1 tid msg hcore]
    rw [hg]
    exact ⟨rfl, rfl⟩
  · intro r w u hr hw hu hfail
    refine ⟨{ id := tid
              name := r.name
              agentType := r.agentType
              platform := r.platform
              owner := w
              creator := r.creator
              parentAgentId := r.parentAgentId
              humanPrincipal := r.humanPrincipal
              lineageDepth := r.lineageDepth
              birthTimestamp := r.birthTimestamp
              active := r.active
              trustLevel := if 0 < ((exceptD (o2.licensesRead tid) []).filter
                  (fun l => l.active)).length then 2
                else if r.humanPrincipal ≠ V2.zeroAddress then 1 else 0
              licenses := (exceptD (o2.licensesRead tid) []).map (fun l =>
                ⟨l.licenseType, l.licenseNumber, l.holder, l.jurisdiction, l.active⟩)
              tokenURI := u }, ?_, ?_⟩
    · unfold V2.assemble
      rw [hr, hw, hu]
    · show (exceptD (o2.licensesRead tid) []).map _ = []
      rw [exceptD_of_not_ok _ [] hfail]
      rfl
  · intro msg hrec hmiss
    exact v2_getAgent_abort o2 ttl now tid c2 hmiss
      (v2_assemble_none_of_core_error o2 tid msg hrec)
  · intro msg hown hmiss
    exact v2_getAgent_abort o2 ttl now tid c2 hmiss
      (v2_assemble_none_of_owner_error o2 tid msg hown)

theorem aux_fault_tolerance_witness :
    (∃ a, (V1.assemble c4V1Oracle 1).1 = some a ∧
      a.isVerified = false ∧ a.lineage = ⟨0, 0⟩ ∧ a.licenses = []) ∧
    ((V1.getAgent oracleBase 30000 0 1 []).1 = none ∧
      (V1.getAgent oracleBase 30000 0 1 []).2.1 = []) ∧
    (∃ a, V2.assemble c4V2Oracle 1 = some a ∧ a.licenses = []) ∧
    V2.getAgent v2Base 30000 0 1 [] = (none, []) ∧
    V2.getAgent c4V2OwnerOracle 30000 0 1 [] = (none, []) := by
  have h1 := aux_fault_tolerance c4V1Oracle c4V2Oracle 30000 0 1 [] []
  have h2 := aux_fault_tolerance oracleBase v2Base 30000 0 1 [] []
  have h3 := aux_fault_tolerance oracleBase c4V2OwnerOracle 30000 0 1 [] []
  obtain ⟨a, ha, hv, hl, hlic⟩ := h1.1 ("Suppi", "guardian", "0xowner", 5) rfl
  obtain ⟨b, hb, hblic⟩ := h1.2.2.1
    ⟨"Suppi", "guardian", "base", "0xcreator", 0, V2.zeroAddress, 0, 9, "pk", true⟩
    "0xowner" "uri" rfl rfl rfl rfl
  exact ⟨⟨a, ha, hv rfl, hl rfl, hlic rfl⟩,
    h2.2.1 "down" rfl rfl,
    ⟨b, hb, hblic⟩,
    h2.2.2.2.1 "down" rfl rfl,
    h3.2.2.2.2 "down" rfl rfl⟩

theorem fetch_trace_counts (o : V1.Oracle) (tid : Nat) :
    ∀ fuel i, V1.probeCount (V1.fetchLicensesFrom o tid i fuel).2 = 0 ∧
      V1.resolveCount (V1.fetchLicensesFrom o tid i fuel).2 = 0 := by
  intro fuel
  induction fuel with
  | zero => intro i; exact ⟨rfl, rfl⟩
  | succ f ih =>
    intro i
    unfold V1.fetchLicensesFrom
    cases hl : o.licenseRead tid i with
    | error msg => exact ⟨rfl, rfl⟩
    | ok t =>
      have := ih (i + 1)
      simp only [V1.probeCount, V1.resolveCount, List.countP_cons] at this ⊢
      simp [this.1, this.2]

theorem assemble_trace_counts (o : V1.Oracle) (tid : Nat) :
    V1.probeCount (V1.assemble o tid).2 = 0 ∧ V1.resolveCount (V1.assemble o tid).2 = 0 := by
  unfold V1.assemble
  cases hc : o.agentData tid with
  | error msg => exact ⟨rfl, rfl⟩
  | ok core =>
    have hf := fetch_trace_counts o tid (exceptD (o.licenseCountRead tid) 0) 0
    simp only [V1.probeCount, V1.resolveCount, List.countP_append, List.countP_cons,
      List.countP_nil] at hf ⊢
    simp [hf.1, hf.2, V1.fetchLicenses]

theorem assembleStep_trace_counts (o : V1.Oracle) (ttl now tid : Nat) (key : String)
    (c : V1.CacheMap) :
    V1.probeCount (V1.assembleStep o ttl now tid key c).2.2 = 0 ∧
    V1.resolveCount (V1.assembleStep o ttl now tid key c).2.2 = 1 := by
  unfold V1.assembleStep
  have hA := assemble_trace_counts o tid
  cases h : V1.assemble o tid with
  | mk ra tr =>
    rw [h] at hA
    cases ra <;>
      simp only [V1.probeCount, V1.resolveCount, List.countP_cons] at hA ⊢ <;>
      simp [hA.1, hA.2]

theorem getAgent_trace_counts (o : V1.Oracle) (ttl now tid : Nat) (c : V1.CacheMap) :
    V1.probeCount (V1.getAgent o ttl now tid c).2.2 = 0 ∧
    V1.resolveCount (V1.getAgent o ttl now tid c).2.2 = 1 := by
  unfold V1.getAgent
  dsimp only
  cases hg : getCache now ("agent:" ++ toString tid) c with
  | mk r c2 =>
    cases r with
    | none => exact assembleStep_trace_counts o ttl now tid ("agent:" ++ toString tid) c2
    | some v =>
      cases v with
      | agent a => exact ⟨rfl, rfl⟩
      | stats s => exact assembleStep_trace_counts o ttl now tid ("agent:" ++ toString tid) c2

theorem scan_no_match (o : V1.Oracle) (ttl now : Nat) (norm : String) (c : V1.CacheMap) :
    ∀ n, (∀ j, 1 ≤ j → j ≤ n → V1.ownerMatchB o j norm = false) →
    V1.scanFrom o ttl now norm c n = (none, c, V1.probeList n) := by
  intro n
  induction n with
  | zero => intro _; rfl
  | succ m ih =>
    intro h
    have hm := h (m + 1) (by omega) (by omega)
    unfold V1.ownerMatchB at hm
    unfold V1.scanFrom
    cases ho : o.ownerOf (m + 1) with
    | error e =>
      rw [ih (fun j h1 h2 => h j h1 (by omega))]
      rfl
    | ok w =>
      rw [ho] at hm
      dsimp only
      rw [if_neg (by simpa using hm)]
      rw [ih (fun j h1 h2 => h j h1 (by omega))]
      rfl

theorem scan_match (o : V1.Oracle) (ttl now : Nat) (norm : String) (c : V1.CacheMap)
    (k : Nat) (hk : 1 ≤ k) (hm : V1.ownerMatchB o k norm = true) :
    ∀ n, k ≤ n → (∀ j, k < j → j ≤ n → V1.ownerMatchB o j norm = false) →
    (V1.scanFrom o ttl now norm c n).1 = (V1.getAgent o ttl now k c).1 ∧
    V1.probeCount (V1.scanFrom o ttl now norm c n).2.2 = n - k + 1 ∧
    V1.resolveCount (V1.scanFrom o ttl now norm c n).2.2 = 1 := by
  intro n
  induction n with
  | zero => intro hkn _; exact absurd (le_trans hk hkn) (by omega)
  | succ m ih =>
    intro hkn hnone
    by_cases hEq : k = m + 1
    · subst hEq
      unfold V1.ownerMatchB at hm
      unfold V1.scanFrom
      cases ho : o.ownerOf (m + 1) with
      | error e => rw [ho] at hm; simp at hm
      | ok w =>
        rw [ho] at hm
        dsimp only
        rw [if_pos (by simpa using hm)]
        have hg := getAgent_trace_counts o ttl now (m + 1) c
        refine ⟨rfl, ?_, ?_⟩
        · simp only [V1.probeCount, List.countP_cons] at hg ⊢
          simp [hg.1]
        · simp only [V1.resolveCount, List.countP_cons] at hg ⊢
          simp [hg.2]
    · have hkm : k ≤ m := by omega
      have hs := ih hkm (fun j h1 h2 => hnone j h1 (by omega))
      have hm1 := hnone (m + 1) (by omega) (by omega)
      unfold V1.ownerMatchB at hm1
      unfold V1.scanFrom
      cases ho : o.ownerOf (m + 1) with
      | error e =>
        dsimp only
        refine ⟨hs.1, ?_, ?_⟩
        · simp only [V1.probeCount, List.countP_cons] at hs ⊢
          simp [hs.2.1]
          omega
        · simp only [V1.resolveCount, List.countP_cons] at hs ⊢
          simp [hs.2.2]
      | ok w =>
        rw [ho] at hm1
        dsimp only
        rw [if_neg (by simpa using hm1)]
        refine ⟨hs.1, ?_, ?_⟩
        · simp only [V1.probeCount, List.countP_cons] at hs ⊢
          simp [hs.2.1]
          omega
        · simp only [V1.resolveCount, List.countP_cons] at hs ⊢
          simp [hs.2.2]

/-- C3: with the registry reporting `total` entries and exactly one
(case-insensitive) owner match at identifier `k` (1 ≤ k ≤ total), the scan of
`findAgentByOwner` issues at most `total - k + 1` ownership probes and
delegates to the record assembler exactly once; failed ownership probes are
swallowed as non-matches; with a zero total, or when every candidate either
fails or does not match, it returns absent after probing every identifier
from `total` down to 1 in order. -/
theorem owner_scan_contract (o : V1.Oracle) (ttl now : Nat) (addr : String)
    (c : V1.CacheMap) (total k : Nat) :
    (o.totalRegistered = .ok total → 1 ≤ k → k ≤ total →
      V1.ownerMatchB o k (lowerStr addr) = true →
      (∀ j, 1 ≤ j → j ≤ total → j ≠ k → V1.ownerMatchB o j (lowerStr addr) = false) →
      V1.probeCount (V1.findAgentByOwner o ttl now addr c).2.2 ≤ total - k + 1 ∧
      V1.resolveCount (V1.findAgentByOwner o ttl now addr c).2.2 = 1) ∧
    (o.totalRegistered = .ok 0 →
      V1.findAgentByOwner o ttl now addr c = (.ok none, c, [V1.Ev.totalRead])) ∧
    (o.totalRegistered = .ok total →
      (∀ j, 1 ≤ j → j ≤ total → V1.ownerMatchB o j (lowerStr addr) = false) →
      V1.findAgentByOwner o ttl now addr c =
        (.ok none, c, V1.Ev.totalRead :: V1.probeList total)) := by
  refine ⟨?_, ?_, ?_⟩
  · intro ht h1 h2 hmatch hnone
    have hs := scan_match o ttl now (lowerStr addr) c k h1 hmatch total h2
      (fun j hj1 hj2 => hnone j (by omega) hj2 (by omega))
    unfold V1.findAgentByOwner
    rw [ht]
    dsimp only
    constructor
    · simp only [V1.probeCount, List.countP_cons] at hs ⊢
      simp [hs.2.1]
    · simp only [V1.resolveCount, List.countP_cons] at hs ⊢
      simp [hs.2.2]
  · intro ht
    unfold V1.findAgentByOwner
    rw [ht]
    rfl
  · intro ht hnone
    unfold V1.findAgentByOwner
    rw [ht]
    dsimp only
    rw [scan_no_match o ttl now (lowerStr addr) c total hnone]

theorem owner_scan_contract_witness :
    (V1.probeCount (V1.findAgentByOwner c3Oracle 30000 0 "0xMe" []).2.2 ≤ 2 ∧
      V1.resolveCount (V1.findAgentByOwner c3Oracle 30000 0 "0xMe" []).2.2 = 1) ∧
    V1.findAgentByOwner c3ZeroOracle 30000 0 "0xMe" [] = (.ok none, [], [V1.Ev.totalRead]) ∧
    V1.findAgentByOwner c3NoneOracle 30000 0 "0xMe" [] =
      (.ok none, [], V1.Ev.totalRead :: V1.probeList 2) := by
  have h := owner_scan_contract c3Oracle 30000 0 "0xMe" [] 2 1
  have hz := owner_scan_contract c3ZeroOracle 30000 0 "0xMe" [] 0 1
  have hn := owner_scan_contract c3NoneOracle 30000 0 "0xMe" [] 2 1
  refine ⟨h.1 rfl (by omega) (by omega) (by decide) ?_, hz.2.1 rfl, hn.2.2 rfl ?_⟩
  · intro j hj1 hj2 hne
    have hj : j = 2 := by omega
    subst hj
    decide
  · intro j hj1 hj2
    have hj : j = 1 ∨ j = 2 := by omega
    rcases hj with hj | hj <;> subst hj <;> decide

theorem fetchPrefixSpec (o : V1.Oracle) (tid : Nat) (g : Nat → String × String × Nat)
    (msg : String) :
    ∀ m i fuel, m < fuel →
    (∀ t, t < m → o.licenseRead tid (i + t) = .ok (g (i + t))) →
    o.licenseRead tid (i + m) = .error msg →
    (V1.fetchLicensesFrom o tid i fuel).1 =
      (List.range' i m).map (fun idx => ⟨(g idx).1, (g idx).2.1, (g idx).2.2⟩) := by
  intro m
  induction m with
  | zero =>
    intro i fuel hfuel _ hfail
    rw [Nat.add_zero] at hfail
    cases fuel with
    | zero => omega
    | succ f =>
      unfold V1.fetchLicensesFrom
      rw [hfail]
      rfl
  | succ m ih =>
    intro i fuel hfuel hok hfail
    cases fuel with
    | zero => omega
    | succ f =>
      have h0 : o.licenseRead tid i = .ok (g i) := by
        have := hok 0 (by omega)
        rwa [Nat.add_zero] at this
      unfold V1.fetchLicensesFrom
      rw [h0]
      dsimp only
      have hrest := ih (i + 1) f (by omega)
        (fun t ht => by
          have := hok (t + 1) (by omega)
          rwa [show i + (t + 1) = i + 1 + t by omega] at this)
        (by rwa [show i + 1 + m = i + (m + 1) by omega])
      rw [hrest]
      simp [List.range']

/-- C10: in the V1 schema path, when the per-index license read fails at
index `j` partway through the loop (`j < count`), `getAgent` neither
substitutes the empty-list default nor aborts: the loop stops at `j`, the
assembled record carries exactly the licenses of indices `0..j-1` in registry
order, and the record is still assembled and stored in the cache. -/
theorem license_prefix_on_midloop_failure (o : V1.Oracle) (ttl now tid count j : Nat)
    (c : V1.CacheMap) (core : String × String × String × Nat)
    (g : Nat → String × String × Nat) (msg : String)
    (hcore : o.agentData tid = .ok core)
    (hcount : o.licenseCountRead tid = .ok count)
    (hj : j < count)
    (hok : ∀ t, t < j → o.licenseRead tid t = .ok (g t))
    (hfail : o.licenseRead tid j = .error msg)
    (hmiss : cacheFind ("agent:" ++ toString tid) c = none) :
    ∃ a, (V1.assemble o tid).1 = some a ∧
      a.licenses = (List.range' 0 j).map
        (fun idx => ⟨(g idx).1, (g idx).2.1, (g idx).2.2⟩) ∧
      (V1.getAgent o ttl now tid c).1 = some a ∧
      cacheFind ("agent:" ++ toString tid) (V1.getAgent o ttl now tid c).2.1 =
        some ⟨V1.CVal.agent a, now + ttl⟩ := by
  have hfetch : (V1.fetchLicenses o tid count).1 = (List.range' 0 j).map
      (fun idx => ⟨(g idx).1, (g idx).2.1, (g idx).2.2⟩) := by
    unfold V1.fetchLicenses
    exact fetchPrefixSpec o tid g msg j 0 count hj
      (fun t ht => by simpa using hok t ht) (by simpa using hfail)
  obtain ⟨A, hA⟩ : ∃ A, V1.assemble o tid =
      (some A, [V1.Ev.coreRead tid, V1.Ev.verifiedRead tid, V1.Ev.lineageQuery tid,
        V1.Ev.countRead tid, V1.Ev.uriRead tid] ++ (V1.fetchLicenses o tid count).2) ∧
      A.licenses = (V1.fetchLicenses o tid count).1 := by
    refine ⟨{ id := tid
              name := core.1
              agentType := core.2.1
              owner := core.2.2.1
              birthBlock := core.2.2.2
              isVerified := exceptD (o.isVerifiedRead tid) false
              trustLevel := if exceptD (o.isVerifiedRead tid) false = true ∧
                  0 < (V1.fetchLicenses o tid count).1.length then 2
                else if exceptD (o.isVerifiedRead tid) false = true then 1 else 0
              licenses := (V1.fetchLicenses o tid count).1
              lineage := ⟨(exceptD (o.lineageRead tid) (0, 0)).1,
                (exceptD (o.lineageRead tid) (0, 0)).2⟩
              tokenURI := exceptD (o.tokenURIRead tid) "" }, ?_, rfl⟩
    unfold V1.assemble
    rw [hcore, hcount]
    rfl
  have hga : V1.getAgent o ttl now tid c =
      (some A, setCache ttl now ("agent:" ++ toString tid) (V1.CVal.agent A) c,
       V1.Ev.resolveAgent tid :: ([V1.Ev.coreRead tid, V1.Ev.verifiedRead tid,
         V1.Ev.lineageQuery tid, V1.Ev.countRead tid, V1.Ev.uriRead tid] ++
         (V1.fetchLicenses o tid count).2)) := by
    unfold V1.getAgent
    simp only [getCache_of_find_none now ("agent:" ++ toString tid) c hmiss]
    unfold V1.assembleStep
    rw [hA.1]
  refine ⟨A, ?_, ?_, ?_, ?_⟩
  · rw [hA.1]
  · rw [hA.2]
    exact hfetch
  · rw [hga]
  · rw [hga]
    exact cacheFind_setCache ttl now ("agent:" ++ toString tid) (V1.CVal.agent A) c

theorem license_prefix_witness :
    ∃ a, (V1.assemble c10Oracle 1).1 = some a ∧
      a.licenses = [⟨"MLO", "154083", 7⟩] ∧
      (V1.getAgent c10Oracle 30000 0 1 []).1 = some a := by
  obtain ⟨a, h1, h2, h3, _⟩ := license_prefix_on_midloop_failure c10Oracle 30000 0 1 3 1 []
    ("Suppi", "guardian", "0xowner", 5) (fun _ => ("MLO", "154083", 7)) "down"
    rfl rfl (by omega)
    (fun t ht => by
      have ht0 : t = 0 := by omega
      subst ht0
      rfl)
    rfl rfl
  refine ⟨a, h1, ?_, h3⟩
  rw [h2]
  rfl
